import Mathlib

/-!
Verification of the stellar-core-export transformation/ordering core:
a shallow embedding of the document model, the operation decoder
(`NewOperation` and its per-kind helpers), the two bulk builders
(`MakeBulk` and `BulkMaker.Make`) and the export pipeline
(`ExportCommand.Execute` / `ExportCommand.index`), together with
theorems settling the specification claims against the code.

Go machine integers: Go `int` values (ledger sequences, amounts, result
codes) are embedded as `Int`; the explicit `uint8(x)` / `byte(x)`
conversions of the source are embedded as `x % 256` on `Nat`.
Go panics (nil-pointer dereference, out-of-range slice index,
`big.NewRat` with zero denominator) are embedded as `Option.none`.
-/

namespace StellarCoreExport

/-- Go `time.Time`, abstracted to an integer timestamp. -/
abbrev GoTime := Int

/-- Go strkey account address (an `xdr.AccountId` after `.Address()`). -/
abbrev AccountID := String

/-- es.Asset document fragment. -/
structure Asset where
  code : String
  issuer : String
  key : String
deriving DecidableEq, Repr

/-- es.Price: rational price pair. -/
structure Price where
  n : Int
  d : Int
deriving DecidableEq, Repr

/-- es.Thresholds: a field is `some` only when the pointer in the Go struct
is non-nil, so absence is distinguished from zero. -/
structure Thresholds where
  low : Option Int
  medium : Option Int
  high : Option Int
  master : Option Int
deriving DecidableEq, Repr

/-- es.AccountFlags. -/
structure AccountFlags where
  authRequired : Bool
  authRevocable : Bool
  authImmutable : Bool
deriving DecidableEq, Repr

/-- xdr.Asset: native asset, or an alphanumeric code with issuer. -/
inductive XdrAsset where
  | native
  | alphanum (code issuer : String)
deriving DecidableEq, Repr

/-- xdr.Price. -/
structure XPrice where
  n : Int
  d : Int
deriving DecidableEq, Repr

/-- xdr.CreateAccountOp. -/
structure CreateAccountOp where
  destination : AccountID
  startingBalance : Int
deriving DecidableEq, Repr

/-- xdr.PaymentOp. -/
structure PaymentOp where
  destination : AccountID
  asset : XdrAsset
  amount : Int
deriving DecidableEq, Repr

/-- xdr.PathPaymentOp. -/
structure PathPaymentOp where
  sendAsset : XdrAsset
  sendMax : Int
  destination : AccountID
  destAsset : XdrAsset
  destAmount : Int
  path : List XdrAsset
deriving DecidableEq, Repr

/-- xdr.ManageOfferOp. -/
structure ManageOfferOp where
  selling : XdrAsset
  buying : XdrAsset
  amount : Int
  price : XPrice
  offerId : Int
deriving DecidableEq, Repr

/-- xdr.CreatePassiveOfferOp. -/
structure CreatePassiveOfferOp where
  selling : XdrAsset
  buying : XdrAsset
  amount : Int
  price : XPrice
deriving DecidableEq, Repr

/-- xdr.SetOptionsOp: every field is a nullable pointer in the XDR,
embedded as `Option`. The flag bitmasks are `xdr.Uint32`, embedded as `Nat`. -/
structure SetOptionsOp where
  inflationDest : Option AccountID
  clearFlags : Option Nat
  setFlags : Option Nat
  masterWeight : Option Int
  lowThreshold : Option Int
  medThreshold : Option Int
  highThreshold : Option Int
  homeDomain : Option String
deriving DecidableEq, Repr

/-- xdr.OperationBody: the tagged union over operation kinds. Kinds the
decoder does not handle (`default` of the type switch) are collapsed into
`other`, carrying the value of `Body.Type.String()`. -/
inductive OperationBody where
  | createAccount (o : CreateAccountOp)
  | payment (o : PaymentOp)
  | pathPayment (o : PathPaymentOp)
  | manageOffer (o : ManageOfferOp)
  | createPassiveOffer (o : CreatePassiveOfferOp)
  | setOptions (o : SetOptionsOp)
  | other (typeName : String)
deriving DecidableEq, Repr

/-- Result of `o.Body.Type.String()`. -/
def OperationBody.typeString : OperationBody → String
  | .createAccount _ => "OperationTypeCreateAccount"
  | .payment _ => "OperationTypePayment"
  | .pathPayment _ => "OperationTypePathPayment"
  | .manageOffer _ => "OperationTypeManageOffer"
  | .createPassiveOffer _ => "OperationTypeCreatePassiveOffer"
  | .setOptions _ => "OperationTypeSetOptions"
  | .other t => t

/-- xdr.Operation: optional overriding source account plus the body. -/
structure XdrOperation where
  sourceAccount : Option AccountID
  body : OperationBody
deriving DecidableEq, Repr

/-- Per-operation result entry of the transaction result
(`Result.Result.Result.Results` element). Modelled from the spec:
`AppendResult` is not part of the sources; the spec says the per-operation
result carries a result code and success flag that get merged into the
pre-built Operation document. -/
structure OperationResult where
  code : Int
  successful : Bool
deriving DecidableEq, Repr

/-- es.Transaction document. Modelled from the spec: `NewTransaction` is not
part of the sources; per the spec the Transaction carries id (hash), the
0-based index within its ledger, the ledger sequence number, the ordering
string `"<ledgerSeq>:<txIndex>"`, the inherited close time, source account
and optional memo. The `Index` field is a Go `byte`. -/
structure Transaction where
  id : String
  index : Nat
  seq : Int
  order : String
  closeTime : GoTime
  sourceAccountID : String
  memo : Option String
deriving DecidableEq, Repr

/-- es.Operation document. Fields that are pointers in Go (assets, path
elements, thresholds, flags, memo) are `Option`/lists; value fields keep
their Go zero values as defaults. `offerPrice` embeds the Go `float64`
produced by `big.Rat.Float64` as the exact rational `n / d`. -/
structure Operation where
  txID : String
  txIndex : Nat
  index : Nat
  seq : Int
  order : String
  closeTime : GoTime
  succesful : Bool
  resultCode : Int
  txSourceAccountID : String
  typ : String
  sourceAccountID : String
  sourceAsset : Option Asset
  sourceAmount : Int
  destinationAccountID : String
  destinationAsset : Option Asset
  destinationAmount : Int
  offerPrice : ℚ
  offerPriceND : Price
  offerID : Int
  trustLimit : Int
  authorize : Bool
  bumpTo : Int
  path : List Asset
  thresholds : Option Thresholds
  homeDomain : String
  inflationDest : String
  setFlags : Option AccountFlags
  clearFlags : Option AccountFlags
  memo : Option String
deriving DecidableEq, Repr

/-- Go helper `asset(a *xdr.Asset) *Asset` of the operation decoder. -/
def asset : XdrAsset → Asset
  | .native => ⟨"native", "", "native"⟩
  | .alphanum c i => ⟨c, i, c ++ "-" ++ i⟩

/-- Go helper `flags(f int) *AccountFlags`: bit 0 = AuthRequired,
bit 1 = AuthRevocable, bit 2 = AuthImmutable. -/
def flags (f : Nat) : AccountFlags :=
  ⟨f.testBit 0, f.testBit 1, f.testBit 2⟩

/-- `newCreateAccount`. -/
def newCreateAccount (o : CreateAccountOp) (op : Operation) : Operation :=
  { op with
    sourceAmount := o.startingBalance
    destinationAccountID := o.destination }

/-- `newPayment`. -/
def newPayment (o : PaymentOp) (op : Operation) : Operation :=
  { op with
    sourceAmount := o.amount
    destinationAccountID := o.destination
    sourceAsset := some (asset o.asset) }

/-- `newPathPayment`. -/
def newPathPayment (o : PathPaymentOp) (op : Operation) : Operation :=
  { op with
    destinationAccountID := o.destination
    destinationAmount := o.destAmount
    destinationAsset := some (asset o.destAsset)
    sourceAmount := o.sendMax
    sourceAsset := some (asset o.sendAsset)
    path := o.path.map asset }

/-- `newManageOffer`. `big.NewRat(int64(N), int64(D))` panics when the
denominator is zero, hence `none` in that case; otherwise the decimal
price is the rational `N / D`. The `OfferPriceND` field is NOT assigned
by this function in the source. -/
def newManageOffer (o : ManageOfferOp) (op : Operation) : Option Operation :=
  if o.price.d = 0 then none
  else
    some { op with
      sourceAmount := o.amount
      sourceAsset := some (asset o.buying)
      offerID := o.offerId
      offerPrice := (o.price.n : ℚ) / (o.price.d : ℚ)
      destinationAsset := some (asset o.selling) }

/-- `newCreatePassiveOffer`. Unlike `newManageOffer` this also assigns
`OfferPriceND`; there is no offer id in the XDR operation. -/
def newCreatePassiveOffer (o : CreatePassiveOfferOp) (op : Operation) :
    Option Operation :=
  if o.price.d = 0 then none
  else
    some { op with
      sourceAmount := o.amount
      sourceAsset := some (asset o.buying)
      offerPrice := (o.price.n : ℚ) / (o.price.d : ℚ)
      offerPriceND := ⟨o.price.n, o.price.d⟩
      destinationAsset := some (asset o.selling) }

/-- The two flag blocks at the end of `newSetOptions`. The source tests
`op.SetFlags != nil` / `op.ClearFlags != nil` — the fields of the document
being built, not the XDR source fields — before dereferencing `*o.SetFlags`
/ `*o.ClearFlags` (a nil dereference is `none`). -/
def setOptionsFlags (o : SetOptionsOp) (op : Operation) : Option Operation :=
  let step1 : Option Operation :=
    if op.setFlags.isSome then
      match o.setFlags with
      | none => none
      | some f => some { op with setFlags := some (flags f) }
    else some op
  match step1 with
  | none => none
  | some op1 =>
    if op1.clearFlags.isSome then
      match o.clearFlags with
      | none => none
      | some f => some { op1 with clearFlags := some (flags f) }
    else some op1

/-- `newSetOptions`. Direct embedding of the source:
`op.InflationDest = o.InflationDest.Address()` (the library returns the
empty string for a nil account id); `op.HomeDomain = string(*o.HomeDomain)`
dereferences an unchecked nil pointer when no home domain is present;
inside the thresholds block the guarded writes store through the nil
`*int` fields of the freshly allocated `&Thresholds{}` (the `Medium` and
`High` writes are guarded by `o.LowThreshold != nil`, copied from the
`Low` guard), so the first executed write panics. -/
def newSetOptions (o : SetOptionsOp) (op : Operation) : Option Operation :=
  let op := { op with inflationDest := o.inflationDest.getD "" }
  match o.homeDomain with
  | none => none
  | some hd =>
    let op := { op with homeDomain := hd }
    if o.lowThreshold.isSome ∨ o.medThreshold.isSome ∨ o.highThreshold.isSome
        ∨ o.masterWeight.isSome then
      let op := { op with thresholds := some ⟨none, none, none, none⟩ }
      if o.lowThreshold.isSome then
        none
      else if o.masterWeight.isSome then
        none
      else
        setOptionsFlags o op
    else
      setOptionsFlags o op

/-- The shared envelope part of `NewOperation`, before the kind switch. -/
def baseOperation (t : Transaction) (o : XdrOperation) (n : Nat) : Operation :=
  { txID := t.id
    txIndex := t.index
    index := n
    seq := t.seq
    order := t.order ++ ":" ++ toString n
    closeTime := t.closeTime
    succesful := true
    resultCode := 0
    txSourceAccountID := t.sourceAccountID
    typ := o.body.typeString
    sourceAccountID := o.sourceAccount.getD t.sourceAccountID
    sourceAsset := none
    sourceAmount := 0
    destinationAccountID := ""
    destinationAsset := none
    destinationAmount := 0
    offerPrice := 0
    offerPriceND := ⟨0, 0⟩
    offerID := 0
    trustLimit := 0
    authorize := false
    bumpTo := 0
    path := []
    thresholds := none
    homeDomain := ""
    inflationDest := ""
    setFlags := none
    clearFlags := none
    memo := t.memo }

/-- `NewOperation`: envelope fields, then the type switch. An unrecognized
kind falls through the switch and the base document is returned as is. -/
def NewOperation (t : Transaction) (o : XdrOperation) (n : Nat) :
    Option Operation :=
  let base := baseOperation t o n
  match o.body with
  | .createAccount c => some (newCreateAccount c base)
  | .payment p => some (newPayment p base)
  | .pathPayment p => some (newPathPayment p base)
  | .manageOffer m => newManageOffer m base
  | .createPassiveOffer m => newCreatePassiveOffer m base
  | .setOptions s => newSetOptions s base
  | .other _ => some base

/-- `AppendResult`. Modelled from the spec: not part of the sources; per the
spec the per-operation result's code and success flag are merged into the
already-built Operation document. -/
def AppendResult (op : Operation) (r : OperationResult) : Operation :=
  { op with resultCode := r.code, succesful := r.successful }

/-- Balance-bearing state of one ledger entry: accounts and trustlines carry
a balance, offers and data entries do not. Modelled from the spec: the
ledger-entry XDR is external library data. -/
inductive LedgerEntryData where
  | account (id : String) (balance : Int)
  | trustline (accountID : String) (asset : Asset) (balance : Int)
  | offerEntry
  | dataEntry
deriving DecidableEq, Repr

/-- One ledger-entry change record, tagged created / updated / removed. -/
inductive LedgerEntryChange where
  | created (e : LedgerEntryData)
  | updated (e : LedgerEntryData)
  | removed
deriving DecidableEq, Repr

/-- xdr.OperationMeta: the change records of one operation. -/
structure OperationMeta where
  changes : List LedgerEntryChange
deriving DecidableEq, Repr

/-- xdr.TransactionMeta: a union with a legacy operations list (v0), a
v1 wrapper around an operations list, or some other (future) version. -/
inductive TransactionMeta where
  | operations (ops : List OperationMeta)
  | v1 (ops : List OperationMeta)
  | otherVersion
deriving DecidableEq, Repr

/-- `Meta.GetV1()`: succeeds exactly on the v1 arm. -/
def TransactionMeta.getV1 : TransactionMeta → Option (List OperationMeta)
  | .v1 ops => some ops
  | _ => none

/-- `Meta.GetOperations()`: succeeds exactly on the legacy v0 arm. -/
def TransactionMeta.getOperations :
    TransactionMeta → Option (List OperationMeta)
  | .operations ops => some ops
  | _ => none

/-- The metas computed by `MakeBulk`: `GetV1` first, otherwise
`metas, ok = GetOperations()` with `ok` left unchecked, so a failed
accessor leaves the nil (empty) slice. -/
def mbMetasOf (m : TransactionMeta) : List OperationMeta :=
  match m.getV1 with
  | some ops => ops
  | none => m.getOperations.getD []

/-- The metas computed by `BulkMaker.makeBalancesFromMetas`: `GetV1` first,
otherwise `GetOperations`, whose failure triggers the method-level
`return`. -/
def bmMetasOf (m : TransactionMeta) : Option (List OperationMeta) :=
  match m.getV1 with
  | some ops => some ops
  | none => m.getOperations

/-- db.TxHistoryRow: the fields of the row the builders read.
`operations` is `Envelope.Tx.Operations`, `results` is the nilable
`Result.Result.Result.Results`, `index` is the row's 0-based position
within its ledger (spec data model). -/
structure TxHistoryRow where
  id : String
  ledgerSeq : Int
  index : Nat
  sourceAccountID : String
  memo : Option String
  operations : List XdrOperation
  results : Option (List OperationResult)
  meta : TransactionMeta
deriving DecidableEq, Repr

/-- db.TxFeeHistoryRow: the fee charge's change records. -/
structure TxFeeHistoryRow where
  changes : List LedgerEntryChange
deriving DecidableEq, Repr

/-- db.LedgerHeaderRow: the fields the builders read. -/
structure LedgerHeaderRow where
  ledgerSeq : Int
  closeTime : GoTime
deriving DecidableEq, Repr

/-- es.LedgerHeader document. Modelled from the spec: `NewLedgerHeader` is
not part of the sources; per the spec it carries the sequence number and
the consensus close time, copied from the raw header row. -/
structure LedgerHeader where
  seq : Int
  closeTime : GoTime
deriving DecidableEq, Repr

/-- `NewLedgerHeader`. Modelled from the spec (see `LedgerHeader`). -/
def NewLedgerHeader (r : LedgerHeaderRow) : LedgerHeader :=
  ⟨r.ledgerSeq, r.closeTime⟩

/-- `NewTransaction`. Modelled from the spec (see `Transaction`): copies
the row's fields, stores the 0-based in-ledger index (a Go `byte`), builds
the order string `"<ledgerSeq>:<txIndex>"` and inherits the close time. -/
def NewTransaction (row : TxHistoryRow) (ct : GoTime) : Transaction :=
  { id := row.id
    index := row.index % 256
    seq := row.ledgerSeq
    order := toString row.ledgerSeq ++ ":" ++ toString row.index
    closeTime := ct
    sourceAccountID := row.sourceAccountID
    memo := row.memo }

/-- es.PagingToken: `(ledgerSeq, transactionOrder, operationOrder,
auxOrder1)`; the three small fields are Go `uint8`. -/
structure PagingToken where
  ledgerSeq : Int
  transactionOrder : Nat
  operationOrder : Nat
  auxOrder1 : Nat
deriving DecidableEq, Repr

/-- Source tag of a synthesized balance document. -/
inductive BalanceSource where
  | meta
  | fee
deriving DecidableEq, Repr

/-- es.Balance document (synthesized). -/
structure Balance where
  accountID : String
  asset : Asset
  value : Int
  source : BalanceSource
  pagingToken : PagingToken
  closeTime : GoTime
deriving DecidableEq, Repr

/-- Balance documents contributed by one change record. Modelled from the
spec: the balance extractor is not part of the sources; per the spec every
created/updated change whose entry carries a balance-bearing quantity
(account native balance or trustline balance) emits one Balance document
with the post-change value, stamped with the given paging token, source
tag and close time; removed entries contribute nothing. -/
def extractBalance (ct : GoTime) (src : BalanceSource) (tok : PagingToken) :
    LedgerEntryChange → List Balance
  | .created (.account id v) => [⟨id, ⟨"native", "", "native"⟩, v, src, tok, ct⟩]
  | .updated (.account id v) => [⟨id, ⟨"native", "", "native"⟩, v, src, tok, ct⟩]
  | .created (.trustline a s v) => [⟨a, s, v, src, tok, ct⟩]
  | .updated (.trustline a s v) => [⟨a, s, v, src, tok, ct⟩]
  | _ => []

/-- `NewBalanceExtractor(changes, ct, src, tok).Extract()`. Modelled from
the spec: a filter-and-annotate pass over the change records, in input
order (see `extractBalance`). -/
def extractBalances (chs : List LedgerEntryChange) (ct : GoTime)
    (src : BalanceSource) (tok : PagingToken) : List Balance :=
  chs.flatMap (extractBalance ct src tok)

/-- One document appended to the bulk buffer by `SerializeForBulk`. -/
inductive Doc where
  | ledger (h : LedgerHeader)
  | transaction (t : Transaction)
  | operation (op : Operation)
  | balance (b : Balance)
deriving DecidableEq, Repr

/-- The collection a document belongs to. -/
inductive DocKind where
  | ledger
  | transaction
  | operation
  | balance
deriving DecidableEq, Repr

/-- Kind of a document. -/
def Doc.kind : Doc → DocKind
  | .ledger _ => .ledger
  | .transaction _ => .transaction
  | .operation _ => .operation
  | .balance _ => .balance

/-- The shared operation loop of `MakeBulk` and
`BulkMaker.makeOperationsWithResults`: for each operation at index `n`,
build the document with `NewOperation(tx, op, byte(n))`; when the result
list pointer is non-nil, index it at `n` — `(*results)[n]` panics when `n`
is out of range — and merge with `AppendResult`. -/
def buildOps (tx : Transaction) :
    List XdrOperation → Nat → Option (List OperationResult) →
    Option (List Operation)
  | [], _, _ => some []
  | o :: rest, n, results =>
    match NewOperation tx o (n % 256) with
    | none => none
    | some op =>
      let merged : Option Operation :=
        match results with
        | none => some op
        | some rs =>
          match rs.get? n with
          | none => none
          | some r => some (AppendResult op r)
      match merged with
      | none => none
      | some op2 =>
        match buildOps tx rest (n + 1) results with
        | none => none
        | some l => some (op2 :: l)

/-- The inner meta loop shared by both builders: for the operation meta at
position `k` (starting from `oStart`), extract balances with operation
order `uint8(k + 1)` and the given transaction order. -/
def metaBalanceDocs (seq : Int) (ct : GoTime) (txOrder : Nat) :
    List OperationMeta → Nat → List Doc
  | [], _ => []
  | om :: rest, o =>
    (extractBalances om.changes ct .meta
        ⟨seq, txOrder, (o + 1) % 256, 1⟩).map Doc.balance
      ++ metaBalanceDocs seq ct txOrder rest (o + 1)

/-- The meta-balance documents `MakeBulk` emits for one transaction:
transaction order is the Transaction document's `Index` field. -/
def mbMetaBalancesForRow (seq : Int) (ct : GoTime) (tx : Transaction)
    (row : TxHistoryRow) : List Doc :=
  metaBalanceDocs seq ct tx.index (mbMetasOf row.meta) 0

/-- One transaction's documents in `MakeBulk`'s per-transaction loop: the
Transaction document, its Operation documents, then the balances derived
from its metas. -/
def mbTxPart (h : LedgerHeader) (row : TxHistoryRow) : Option (List Doc) :=
  let tx := NewTransaction row h.closeTime
  match buildOps tx row.operations 0 row.results with
  | none => none
  | some ops =>
    some (Doc.transaction tx :: (ops.map Doc.operation
      ++ mbMetaBalancesForRow h.seq h.closeTime tx row))

/-- Concatenation of optional buffers (a panic anywhere kills the run). -/
def optAppend (x y : Option (List Doc)) : Option (List Doc) :=
  match x, y with
  | some a, some b => some (a ++ b)
  | _, _ => none

/-- `MakeBulk`'s transaction loop. -/
def mbTxLoop (h : LedgerHeader) : List TxHistoryRow → Option (List Doc)
  | [] => some []
  | row :: rest => optAppend (mbTxPart h row) (mbTxLoop h rest)

/-- `MakeBulk`'s fee loop: the token's transaction order is `uint8(k)` for
the fee row at 0-based position `k`, the operation order is the sentinel
255 and the aux order is 2. -/
def mbFeeBalances (seq : Int) (ct : GoTime) :
    List TxFeeHistoryRow → Nat → List Doc
  | [], _ => []
  | fee :: rest, k =>
    (extractBalances fee.changes ct .fee ⟨seq, k % 256, 255, 2⟩).map Doc.balance
      ++ mbFeeBalances seq ct rest (k + 1)

/-- `MakeBulk`: header document, then per transaction the Transaction,
Operation and meta-balance documents, then the fee balances. -/
def MakeBulk (r : LedgerHeaderRow) (txs : List TxHistoryRow)
    (fees : List TxFeeHistoryRow) : Option (List Doc) :=
  let h := NewLedgerHeader r
  match mbTxLoop h txs with
  | none => none
  | some txDocs =>
    some (Doc.ledger h :: (txDocs ++ mbFeeBalances h.seq h.closeTime fees 0))

/-- `BulkMaker.makeOperationsWithResults`: all transactions' operation
documents, in transaction order. -/
def bmOpsLoop (h : LedgerHeader) : List TxHistoryRow → Option (List Doc)
  | [] => some []
  | row :: rest =>
    match buildOps (NewTransaction row h.closeTime) row.operations 0
        row.results with
    | none => none
    | some ops =>
      match bmOpsLoop h rest with
      | none => none
      | some more => some (ops.map Doc.operation ++ more)

/-- `BulkMaker.makeBalancesFromMetas`: transaction order is the 1-based
transaction position `uint8(tIndex + 1)`; a transaction whose meta has
neither a v1 nor a legacy operations list triggers `return`, aborting the
whole method (the remaining transactions included). -/
def bmBalancesFromMetas (seq : Int) (ct : GoTime) :
    List TxHistoryRow → Nat → List Doc
  | [], _ => []
  | row :: rest, tIndex =>
    match bmMetasOf row.meta with
    | none => []
    | some metas =>
      metaBalanceDocs seq ct ((tIndex + 1) % 256) metas 0
        ++ bmBalancesFromMetas seq ct rest (tIndex + 1)

/-- `BulkMaker.makeBalancesFromFeeHistory`: transaction order is the
1-based fee-row position `uint8(tIndex + 1)`, operation order is the
sentinel 255, aux order is 2. -/
def bmFeeBalances (seq : Int) (ct : GoTime) :
    List TxFeeHistoryRow → Nat → List Doc
  | [], _ => []
  | fee :: rest, tIndex =>
    (extractBalances fee.changes ct .fee
        ⟨seq, (tIndex + 1) % 256, 255, 2⟩).map Doc.balance
      ++ bmFeeBalances seq ct rest (tIndex + 1)

/-- `NewBulkMaker(l, t, f, b)` followed by `Make()`: ledger header, all
Transaction documents, all Operation documents, all meta balances, all fee
balances. -/
def BulkMakerMake (l : LedgerHeaderRow) (t : List TxHistoryRow)
    (f : List TxFeeHistoryRow) : Option (List Doc) :=
  let h := NewLedgerHeader l
  match bmOpsLoop h t with
  | none => none
  | some opDocs =>
    some (Doc.ledger h ::
      (t.map (fun row => Doc.transaction (NewTransaction row h.closeTime))
        ++ opDocs
        ++ bmBalancesFromMetas h.seq h.closeTime t 0
        ++ bmFeeBalances h.seq h.closeTime f 0))

/-- commands.ExportCommandConfig (the fields `Execute` reads). -/
structure ExportConfig where
  start : Int
  count : Int
  retryCount : Int
deriving DecidableEq, Repr

/-- Terminal state of `ExportCommand.Execute`. -/
inductive ExportOutcome where
  | fatalEmptyRange
  | fatalBulkFailed
  | done
deriving DecidableEq, Repr

/-- Observable behaviour of one `Execute` run: the terminal state, the
sequences serialized into the buffer, and how many `BulkInsert` calls were
made. -/
structure ExportResult where
  outcome : ExportOutcome
  processed : List Int
  bulkAttempts : Nat
deriving DecidableEq, Repr

/-- `ExportCommand.Execute`: `firstLedger = Start`,
`lastLedger = Start + Count`; a zero count is fatal before any work; the
loop over the source stream skips a record when
`seq < firstLedger || seq > lastLedger` and serializes it otherwise; then
`BulkInsert` is called exactly once on the buffer and its failure is
fatal. `src` is the sequence numbers yielded by `stellar.StreamLedgers`,
`sink` the boolean result of `BulkInsert`. -/
def ExportExecute (cfg : ExportConfig) (src : List Int) (sink : Bool) :
    ExportResult :=
  let first := cfg.start
  let last := cfg.start + cfg.count
  if cfg.count = 0 then ⟨.fatalEmptyRange, [], 0⟩
  else
    let processed := src.filter fun seq =>
      !(decide (seq < first) || decide (seq > last))
    if sink then ⟨.done, processed, 1⟩ else ⟨.fatalBulkFailed, processed, 1⟩

/-- Recursion of `ExportCommand.index` against an always-failing sink,
with the remaining attempt budget made explicit: the call at counter
`retry` has budget `RetryCount + 1 - retry`; budget 0 means
`retry > RetryCount`, so after its one failed `BulkInsert` the call is
fatal; otherwise it sleeps `rand.Intn(10) + 5` and recurses at
`retry + 1`. Returns the number of `BulkInsert` calls and the list of
delays slept between consecutive calls; `rand k` is the k-th draw of
`rand.Intn(10)` (taken modulo 10, as `Intn` guarantees). -/
def indexRetryGo (rand : Nat → Nat) : Nat → Nat → Nat × List Nat
  | _, 0 => (1, [])
  | retry, budget + 1 =>
    let d := rand retry % 10 + 5
    let p := indexRetryGo rand (retry + 1) budget
    (1 + p.1, d :: p.2)

/-- `ExportCommand.index(b, retry)` against an always-failing sink:
total `BulkInsert` calls and delays slept until `log.Fatal`. The budget
`retryCount + 1 - retry` is exactly the number of times the test
`retry > RetryCount` fails along the recursion. -/
def indexRetryLoop (retryCount : Nat) (rand : Nat → Nat) (retry : Nat) :
    Nat × List Nat :=
  indexRetryGo rand retry (retryCount + 1 - retry)

/-- Number of Balance documents one change record contributes. -/
def changeBalanceCount : LedgerEntryChange → Nat
  | .created (.account _ _) => 1
  | .updated (.account _ _) => 1
  | .created (.trustline _ _ _) => 1
  | .updated (.trustline _ _ _) => 1
  | _ => 0

/-- Number of Balance documents a change set contributes. -/
def balanceCount (chs : List LedgerEntryChange) : Nat :=
  (chs.map changeBalanceCount).sum

/-- Number of meta-derived Balance documents `MakeBulk` emits for a row. -/
def mbMetaBalCount (row : TxHistoryRow) : Nat :=
  ((mbMetasOf row.meta).map (fun om => balanceCount om.changes)).sum

/-- Provenance and token shape of a balance emitted by
`BulkMaker.makeBalancesFromMetas` started at transaction counter `i`: it
comes from operation meta `oi` of the row at position `k`, and its token
is (ledger seq, 1-based transaction position, 1-based operation position,
aux 1). -/
def bmMetaTokenShape (seq : Int) (ct : GoTime) (i : Nat)
    (rows : List TxHistoryRow) (b : Balance) : Prop :=
  ∃ k row metas oi om,
    rows.get? k = some row ∧ bmMetasOf row.meta = some metas ∧
    metas.get? oi = some om ∧
    b ∈ extractBalances om.changes ct .meta
      ⟨seq, (i + k + 1) % 256, (oi + 1) % 256, 1⟩ ∧
    b.pagingToken = ⟨seq, (i + k + 1) % 256, (oi + 1) % 256, 1⟩ ∧
    b.source = .meta

/-- Provenance and token shape of a balance emitted by
`BulkMaker.makeBalancesFromFeeHistory` started at counter `i`: it comes
from the fee row at position `k` and its token is (ledger seq, 1-based
fee-row position, sentinel 255, aux 2). -/
def bmFeeTokenShape (seq : Int) (ct : GoTime) (i : Nat)
    (fees : List TxFeeHistoryRow) (b : Balance) : Prop :=
  ∃ k fee,
    fees.get? k = some fee ∧
    b ∈ extractBalances fee.changes ct .fee ⟨seq, (i + k + 1) % 256, 255, 2⟩ ∧
    b.pagingToken = ⟨seq, (i + k + 1) % 256, 255, 2⟩ ∧
    b.source = .fee

/-- Provenance and token shape of a meta-derived balance of `MakeBulk`:
the transaction-order field is the Transaction document's `Index` field,
not the 1-based ledger position. -/
def mbMetaTokenShape (seq : Int) (ct : GoTime) (tx : Transaction)
    (row : TxHistoryRow) (b : Balance) : Prop :=
  ∃ oi om,
    (mbMetasOf row.meta).get? oi = some om ∧
    b ∈ extractBalances om.changes ct .meta
      ⟨seq, tx.index, (oi + 1) % 256, 1⟩ ∧
    b.pagingToken = ⟨seq, tx.index, (oi + 1) % 256, 1⟩ ∧
    b.source = .meta

/-- Provenance and token shape of a fee-derived balance of `MakeBulk`
started at counter `i`: the transaction-order field is the 0-based
fee-row position `uint8(k)`. -/
def mbFeeTokenShape (seq : Int) (ct : GoTime) (i : Nat)
    (fees : List TxFeeHistoryRow) (b : Balance) : Prop :=
  ∃ k fee,
    fees.get? k = some fee ∧
    b ∈ extractBalances fee.changes ct .fee ⟨seq, (i + k) % 256, 255, 2⟩ ∧
    b.pagingToken = ⟨seq, (i + k) % 256, 255, 2⟩ ∧
    b.source = .fee

/-! Concrete inputs used by witnesses and counterexamples. -/

/-- Ledger header row, sequence 1000, close time 7 (claim C1). -/
def c1Hdr : LedgerHeaderRow := ⟨1000, 7⟩

/-- One fee row with a single account change (claim C1). -/
def c1Fee : TxFeeHistoryRow := ⟨[.created (.account "GA" 50)]⟩

/-- The balance `MakeBulk` emits for `c1Fee` (claim C1). -/
def c1CexBal : Balance :=
  ⟨"GA", ⟨"native", "", "native"⟩, 50, .fee, ⟨1000, 0, 255, 2⟩, 7⟩

/-- A transaction row whose meta carries one operation meta with one
account change (claim C1). -/
def c1Row : TxHistoryRow :=
  ⟨"t1", 1000, 0, "GS", none, [], none,
    .operations [⟨[.created (.account "GB" 9)]⟩]⟩

/-- The balance `BulkMaker.makeBalancesFromMetas` emits for `c1Row`
(claim C1). -/
def c1WBal : Balance :=
  ⟨"GB", ⟨"native", "", "native"⟩, 9, .meta, ⟨1000, 1, 1, 1⟩, 7⟩

/-- Ledger header row (claim C2). -/
def c2L : LedgerHeaderRow := ⟨2000, 9⟩

/-- A payment operation (claim C2). -/
def c2Pay : XdrOperation := ⟨none, .payment ⟨"GD", .native, 4⟩⟩

/-- First transaction row: one payment, one meta balance (claim C2). -/
def c2Row1 : TxHistoryRow :=
  ⟨"ta", 2000, 0, "GS", none, [c2Pay], none,
    .operations [⟨[.created (.account "GA" 10)]⟩]⟩

/-- Second transaction row: one payment, no meta balances (claim C2). -/
def c2Row2 : TxHistoryRow :=
  ⟨"tb", 2000, 1, "GS2", none, [c2Pay], none, .operations []⟩

/-- The buffer `BulkMaker` produces for the claim C2 input. -/
def c2BMdocs : List Doc :=
  (BulkMakerMake c2L [c2Row1, c2Row2] []).getD []

/-- A fallback transaction value for projections (claim C2). -/
def c2FallbackTx : Transaction := ⟨"", 0, 0, "", 0, "", none⟩

/-- The Operation document at position 3 of `c2BMdocs` (claim C2). -/
def c2AnOp : Operation :=
  match c2BMdocs.get? 3 with
  | some (.operation op) => op
  | _ => baseOperation c2FallbackTx ⟨none, .other ""⟩ 0

/-- The Balance document at position 5 of `c2BMdocs` (claim C2). -/
def c2ABal : Balance :=
  match c2BMdocs.get? 5 with
  | some (.balance b) => b
  | _ => ⟨"", ⟨"", "", ""⟩, 0, .meta, ⟨0, 0, 0, 0⟩, 0⟩

/-- A transaction document used as decoding context (claims C5-C8). -/
def cTx : Transaction := ⟨"tid", 0, 10, "10:0", 0, "GS", none⟩

/-- A payment operation (claim C5). -/
def c5Pay : XdrOperation := ⟨none, .payment ⟨"GE", .native, 3⟩⟩

/-- Set-options setting only the master weight (claim C6). -/
def c6Op1 : XdrOperation :=
  ⟨none, .setOptions ⟨none, none, none, some 1, none, none, none, none⟩⟩

/-- Set-options with master weight and a home domain (claim C6). -/
def c6Op2 : XdrOperation :=
  ⟨none, .setOptions
    ⟨some "GINF", none, none, some 1, none, none, none, some "example.com"⟩⟩

/-- Set-options with a present (non-nil) SetFlags bitmask, no thresholds
(claim C6). -/
def c6Op3 : XdrOperation :=
  ⟨some "GSRC", .setOptions
    ⟨some "GINF", none, some 3, none, none, none, none, some "d"⟩⟩

/-- A manage-offer XDR operation with price 3/2 (claim C7). -/
def c7M : ManageOfferOp := ⟨.native, .alphanum "USD" "G1", 5, ⟨3, 2⟩, 7⟩

/-- A create-passive-offer XDR operation with price 1/4 (claim C7). -/
def c7P : CreatePassiveOfferOp := ⟨.native, .alphanum "EUR" "G2", 6, ⟨1, 4⟩⟩

/-- The manage-offer operation wrapped as an `xdr.Operation` (claim C7). -/
def c7Xop : XdrOperation := ⟨none, .manageOffer c7M⟩

/-- The decoding context of claim C7's witness. -/
def c7Base : Operation := baseOperation cTx c7Xop 0

/-- An operation of a kind outside the known tag set (claim C8). -/
def c8Op : XdrOperation := ⟨some "GOP", .other "OperationTypeBumpSequence"⟩

/-- A transaction row with a well-formed legacy meta (claim C10). -/
def c10Good : TxHistoryRow :=
  ⟨"tg", 1000, 0, "GS", none, [], none,
    .operations [⟨[.created (.account "GC" 11)]⟩]⟩

/-- A transaction row whose meta has neither a v1 nor a legacy operations
list (claim C10). -/
def c10Bad : TxHistoryRow :=
  ⟨"tu", 1000, 1, "GS", none, [], none, .otherVersion⟩

/-! Helper lemmas about the balance extractor and the balance loops. -/

theorem mem_extractBalance (ct : GoTime) (src : BalanceSource)
    (tok : PagingToken) (ch : LedgerEntryChange) (b : Balance)
    (h : b ∈ extractBalance ct src tok ch) :
    b.pagingToken = tok ∧ b.source = src := by
  cases ch with
  | removed => simp [extractBalance] at h
  | created e =>
    cases e with
    | account id v => simp [extractBalance] at h; subst h; exact ⟨rfl, rfl⟩
    | trustline a s v => simp [extractBalance] at h; subst h; exact ⟨rfl, rfl⟩
    | offerEntry => simp [extractBalance] at h
    | dataEntry => simp [extractBalance] at h
  | updated e =>
    cases e with
    | account id v => simp [extractBalance] at h; subst h; exact ⟨rfl, rfl⟩
    | trustline a s v => simp [extractBalance] at h; subst h; exact ⟨rfl, rfl⟩
    | offerEntry => simp [extractBalance] at h
    | dataEntry => simp [extractBalance] at h

theorem mem_extractBalances (chs : List LedgerEntryChange) (ct : GoTime)
    (src : BalanceSource) (tok : PagingToken) (b : Balance)
    (h : b ∈ extractBalances chs ct src tok) :
    b.pagingToken = tok ∧ b.source = src := by
  rcases List.mem_flatMap.1 h with ⟨ch, _, hb⟩
  exact mem_extractBalance ct src tok ch b hb

theorem mem_metaBalanceDocs (seq : Int) (ct : GoTime) (txOrder : Nat)
    (metas : List OperationMeta) (j : Nat) (b : Balance)
    (h : Doc.balance b ∈ metaBalanceDocs seq ct txOrder metas j) :
    ∃ k om, metas.get? k = some om ∧
      b ∈ extractBalances om.changes ct .meta
        ⟨seq, txOrder, (j + k + 1) % 256, 1⟩ := by
  induction metas generalizing j with
  | nil => cases h
  | cons om rest ih =>
    simp only [metaBalanceDocs] at h
    rcases List.mem_append.1 h with h1 | h2
    · rcases List.mem_map.1 h1 with ⟨b', hb', heq⟩
      cases heq
      exact ⟨0, om, rfl, hb'⟩
    · rcases ih (j + 1) h2 with ⟨k, om', h1', h2'⟩
      refine ⟨k + 1, om', h1', ?_⟩
      have e : j + (k + 1) + 1 = j + 1 + k + 1 := by omega
      rw [e]; exact h2'

theorem mem_bmBalancesFromMetas (seq : Int) (ct : GoTime)
    (rows : List TxHistoryRow) (i : Nat) (b : Balance)
    (h : Doc.balance b ∈ bmBalancesFromMetas seq ct rows i) :
    ∃ k row metas oi om, rows.get? k = some row ∧
      bmMetasOf row.meta = some metas ∧ metas.get? oi = some om ∧
      b ∈ extractBalances om.changes ct .meta
        ⟨seq, (i + k + 1) % 256, (oi + 1) % 256, 1⟩ := by
  induction rows generalizing i with
  | nil => cases h
  | cons row rest ih =>
    simp only [bmBalancesFromMetas] at h
    cases hm : bmMetasOf row.meta with
    | none => rw [hm] at h; cases h
    | some metas =>
      rw [hm] at h
      rcases List.mem_append.1 h with h1 | h2
      · rcases mem_metaBalanceDocs _ _ _ _ _ _ h1 with ⟨oi, om, ho, hb⟩
        refine ⟨0, row, metas, oi, om, rfl, hm, ho, ?_⟩
        have e : 0 + oi + 1 = oi + 1 := by omega
        rw [e] at hb; exact hb
      · rcases ih (i + 1) h2 with ⟨k, row', metas', oi, om, h1', h2', h3', h4'⟩
        refine ⟨k + 1, row', metas', oi, om, h1', h2', h3', ?_⟩
        have e : i + (k + 1) + 1 = i + 1 + k + 1 := by omega
        rw [e]; exact h4'

theorem mem_bmFeeBalances (seq : Int) (ct : GoTime)
    (fees : List TxFeeHistoryRow) (i : Nat) (b : Balance)
    (h : Doc.balance b ∈ bmFeeBalances seq ct fees i) :
    ∃ k fee, fees.get? k = some fee ∧
      b ∈ extractBalances fee.changes ct .fee
        ⟨seq, (i + k + 1) % 256, 255, 2⟩ := by
  induction fees generalizing i with
  | nil => cases h
  | cons fee rest ih =>
    simp only [bmFeeBalances] at h
    rcases List.mem_append.1 h with h1 | h2
    · rcases List.mem_map.1 h1 with ⟨b', hb', heq⟩
      cases heq
      exact ⟨0, fee, rfl, hb'⟩
    · rcases ih (i + 1) h2 with ⟨k, fee', h1', h2'⟩
      refine ⟨k + 1, fee', h1', ?_⟩
      have e : i + (k + 1) + 1 = i + 1 + k + 1 := by omega
      rw [e]; exact h2'

theorem mem_mbFeeBalances (seq : Int) (ct : GoTime)
    (fees : List TxFeeHistoryRow) (i : Nat) (b : Balance)
    (h : Doc.balance b ∈ mbFeeBalances seq ct fees i) :
    ∃ k fee, fees.get? k = some fee ∧
      b ∈ extractBalances fee.changes ct .fee ⟨seq, (i + k) % 256, 255, 2⟩ := by
  induction fees generalizing i with
  | nil => cases h
  | cons fee rest ih =>
    simp only [mbFeeBalances] at h
    rcases List.mem_append.1 h with h1 | h2
    · rcases List.mem_map.1 h1 with ⟨b', hb', heq⟩
      cases heq
      exact ⟨0, fee, rfl, hb'⟩
    · rcases ih (i + 1) h2 with ⟨k, fee', h1', h2'⟩
      refine ⟨k + 1, fee', h1', ?_⟩
      have e : i + (k + 1) = i + 1 + k := by omega
      rw [e]; exact h2'

/-- Claim C1 (corrected): the claimed Paging Token layout — ledger
sequence, 1-based transaction position, 1-based operation position (or
the 255 sentinel) and aux order 1/2 — holds for the balances emitted by
`BulkMaker` (conjuncts 1 and 2). In `MakeBulk`, however, meta-derived
balances carry the Transaction document's `Index` field as transaction
order (conjunct 3) and fee-derived balances carry the 0-based fee-row
position `uint8(k)` (conjunct 4), not the 1-based position. -/
theorem claim_C1_amended (seq : Int) (ct : GoTime) (i : Nat) (b : Balance)
    (rows : List TxHistoryRow) (fees : List TxFeeHistoryRow)
    (tx : Transaction) (row : TxHistoryRow) :
    (Doc.balance b ∈ bmBalancesFromMetas seq ct rows i →
      bmMetaTokenShape seq ct i rows b)
    ∧ (Doc.balance b ∈ bmFeeBalances seq ct fees i →
      bmFeeTokenShape seq ct i fees b)
    ∧ (Doc.balance b ∈ mbMetaBalancesForRow seq ct tx row →
      mbMetaTokenShape seq ct tx row b)
    ∧ (Doc.balance b ∈ mbFeeBalances seq ct fees i →
      mbFeeTokenShape seq ct i fees b) := by
  refine ⟨?_, ?_, ?_, ?_⟩
  · intro h
    rcases mem_bmBalancesFromMetas seq ct rows i b h with
      ⟨k, row', metas, oi, om, h1, h2, h3, h4⟩
    rcases mem_extractBalances _ _ _ _ _ h4 with ⟨ht, hs⟩
    exact ⟨k, row', metas, oi, om, h1, h2, h3, h4, ht, hs⟩
  · intro h
    rcases mem_bmFeeBalances seq ct fees i b h with ⟨k, fee, h1, h2⟩
    rcases mem_extractBalances _ _ _ _ _ h2 with ⟨ht, hs⟩
    exact ⟨k, fee, h1, h2, ht, hs⟩
  · intro h
    rcases mem_metaBalanceDocs _ _ _ _ _ _ h with ⟨oi, om, h1, h2⟩
    rcases mem_extractBalances _ _ _ _ _ h2 with ⟨ht, hs⟩
    have e : 0 + oi + 1 = oi + 1 := by omega
    rw [e] at h2 ht
    exact ⟨oi, om, h1, h2, ht, hs⟩
  · intro h
    rcases mem_mbFeeBalances seq ct fees i b h with ⟨k, fee, h1, h2⟩
    rcases mem_extractBalances _ _ _ _ _ h2 with ⟨ht, hs⟩
    exact ⟨k, fee, h1, h2, ht, hs⟩

/-- Claim C1 counterexample: `MakeBulk` over a ledger with no transactions
and one fee row emits a fee-derived Balance whose token's transaction
order is the 0-based fee-row position 0, not the 1-based position 1 the
claim requires. -/
theorem claim_C1_counterexample :
    MakeBulk c1Hdr [] [c1Fee] =
      some [Doc.ledger ⟨1000, 7⟩, Doc.balance c1CexBal]
    ∧ c1CexBal.pagingToken.transactionOrder = 0
    ∧ c1CexBal.pagingToken.transactionOrder ≠ 1 := by
  exact ⟨by decide, by decide, by decide⟩

/-- Claim C1 witness: a concrete balance emitted by
`BulkMaker.makeBalancesFromMetas` has the amended token shape. -/
theorem claim_C1_witness : bmMetaTokenShape 1000 7 0 [c1Row] c1WBal :=
  (claim_C1_amended 1000 7 0 c1WBal [c1Row] [] (NewTransaction c1Row 7)
    c1Row).1 (by decide)

/-! Helper lemmas about the operation decoder and the operation loop. -/

theorem setOptionsFlags_result (o : SetOptionsOp) (op op' : Operation)
    (h : setOptionsFlags o op = some op') :
    op'.succesful = op.succesful ∧ op'.resultCode = op.resultCode := by
  unfold setOptionsFlags at h
  dsimp only at h
  split at h
  · exact Option.noConfusion h
  · rename_i op1 heq
    have hop1 : op1.succesful = op.succesful ∧
        op1.resultCode = op.resultCode := by
      split at heq
      · split at heq
        · exact Option.noConfusion heq
        · injection heq with e; subst e; exact ⟨rfl, rfl⟩
      · injection heq with e; subst e; exact ⟨rfl, rfl⟩
    split at h
    · split at h
      · exact Option.noConfusion h
      · injection h with e; subst e; exact hop1
    · injection h with e; subst e; exact hop1

theorem newSetOptions_result (o : SetOptionsOp) (op op' : Operation)
    (h : newSetOptions o op = some op') :
    op'.succesful = op.succesful ∧ op'.resultCode = op.resultCode := by
  unfold newSetOptions at h
  dsimp only at h
  split at h
  · exact Option.noConfusion h
  · split at h
    · split at h
      · exact Option.noConfusion h
      · split at h
        · exact Option.noConfusion h
        · have hres := setOptionsFlags_result _ _ _ h
          exact hres
    · have hres := setOptionsFlags_result _ _ _ h
      exact hres

theorem NewOperation_result (t : Transaction) (o : XdrOperation) (n : Nat)
    (op : Operation) (h : NewOperation t o n = some op) :
    op.succesful = true ∧ op.resultCode = 0 := by
  obtain ⟨sa, body⟩ := o
  cases body with
  | createAccount c =>
    simp only [NewOperation, Option.some.injEq] at h
    subst h; exact ⟨rfl, rfl⟩
  | payment p =>
    simp only [NewOperation, Option.some.injEq] at h
    subst h; exact ⟨rfl, rfl⟩
  | pathPayment p =>
    simp only [NewOperation, Option.some.injEq] at h
    subst h; exact ⟨rfl, rfl⟩
  | manageOffer m =>
    simp only [NewOperation, newManageOffer] at h
    split at h
    · exact Option.noConfusion h
    · injection h with h; subst h; exact ⟨rfl, rfl⟩
  | createPassiveOffer m =>
    simp only [NewOperation, newCreatePassiveOffer] at h
    split at h
    · exact Option.noConfusion h
    · injection h with h; subst h; exact ⟨rfl, rfl⟩
  | setOptions s =>
    simp only [NewOperation] at h
    have hres := newSetOptions_result _ _ _ h
    exact hres
  | other ty =>
    simp only [NewOperation, Option.some.injEq] at h
    subst h; exact ⟨rfl, rfl⟩

theorem buildOps_none_defaults (tx : Transaction) :
    ∀ (ops : List XdrOperation) (n : Nat) (l : List Operation),
    buildOps tx ops n none = some l →
    ∀ op ∈ l, op.succesful = true ∧ op.resultCode = 0 := by
  intro ops
  induction ops with
  | nil =>
    intro n l h op hop
    simp only [buildOps] at h
    cases h; cases hop
  | cons o rest ih =>
    intro n l h op hop
    simp only [buildOps] at h
    cases hno : NewOperation tx o (n % 256) with
    | none => rw [hno] at h; cases h
    | some op1 =>
      rw [hno] at h
      cases hrec : buildOps tx rest (n + 1) none with
      | none => rw [hrec] at h; cases h
      | some l' =>
        rw [hrec] at h
        injection h with h; subst h
        rcases List.mem_cons.1 hop with heq | hmem
        · subst heq; exact NewOperation_result tx o (n % 256) op hno
        · exact ih (n + 1) l' hrec op hmem

theorem buildOps_short (tx : Transaction) :
    ∀ (ops : List XdrOperation) (n : Nat) (rs : List OperationResult),
    ops ≠ [] → rs.length < n + ops.length →
    buildOps tx ops n (some rs) = none := by
  intro ops
  induction ops with
  | nil => intro n rs hne _; exact absurd rfl hne
  | cons o rest ih =>
    intro n rs _ hlen
    simp only [buildOps]
    cases hno : NewOperation tx o (n % 256) with
    | none => rfl
    | some op1 =>
      cases hr : rs.get? n with
      | none => rfl
      | some r =>
        have hn : n < rs.length := by
          by_contra hcon
          push_neg at hcon
          rw [List.get?_eq_getElem?, List.getElem?_eq_none hcon] at hr
          cases hr
        cases rest with
        | nil =>
          exact absurd hn (by simp at hlen; omega)
        | cons o2 rest2 =>
          have hres := ih (n + 1) rs (by simp) (by simp at hlen ⊢; omega)
          rw [hres]

theorem buildOps_merge (tx : Transaction) :
    ∀ (ops : List XdrOperation) (n : Nat) (rs : List OperationResult),
    n + ops.length ≤ rs.length →
    buildOps tx ops n (some rs) =
      (buildOps tx ops n none).map
        (fun l => List.zipWith AppendResult l (rs.drop n)) := by
  intro ops
  induction ops with
  | nil => intro n rs _; rfl
  | cons o rest ih =>
    intro n rs hlen
    have hn : n < rs.length := by simp at hlen; omega
    simp only [buildOps]
    cases hno : NewOperation tx o (n % 256) with
    | none => rfl
    | some op1 =>
      have hr : rs.get? n = some (rs.get ⟨n, hn⟩) := List.get?_eq_get hn
      rw [hr]
      rw [ih (n + 1) rs (by simp at hlen ⊢; omega)]
      have hdrop : rs.drop n = rs.get ⟨n, hn⟩ :: rs.drop (n + 1) :=
        List.drop_eq_getElem_cons hn
      cases hrec : buildOps tx rest (n + 1) none with
      | none => rfl
      | some l' =>
        rw [hdrop]
        exact rfl

/-- Claim C5 (corrected): when the transaction carries no per-operation
results, every decoded Operation keeps its defaults (success = true,
result code = 0), and a result array longer than the operation list has
its extra entries ignored (results are merged index by index over the
operation list). But a result array SHORTER than the operation list is
not tolerated: `(*results)[o]` indexes it out of range — a panic — rather
than applying results only at indices present in both. -/
theorem claim_C5_amended :
    (∀ (tx : Transaction) (ops : List XdrOperation) (n : Nat)
      (l : List Operation), buildOps tx ops n none = some l →
      ∀ op ∈ l, op.succesful = true ∧ op.resultCode = 0)
    ∧ (∀ (tx : Transaction) (ops : List XdrOperation)
      (rs : List OperationResult), rs.length < ops.length →
      buildOps tx ops 0 (some rs) = none)
    ∧ (∀ (tx : Transaction) (ops : List XdrOperation) (n : Nat)
      (rs : List OperationResult), n + ops.length ≤ rs.length →
      buildOps tx ops n (some rs) =
        (buildOps tx ops n none).map
          (fun l => List.zipWith AppendResult l (rs.drop n))) := by
  refine ⟨?_, ?_, ?_⟩
  · intro tx ops n l h op hop
    exact buildOps_none_defaults tx ops n l h op hop
  · intro tx ops rs hlen
    have hne : ops ≠ [] := by
      intro e; subst e; simp at hlen
    exact buildOps_short tx ops 0 rs hne (by omega)
  · intro tx ops n rs hlen
    exact buildOps_merge tx ops n rs hlen

/-- Claim C5 counterexample: one decodable payment operation with a
present-but-empty result array makes the merge loop panic (`none`), while
the same operation list without results decodes fine — refuting
"results are applied only at indices that exist in both, without
failing". -/
theorem claim_C5_counterexample :
    buildOps cTx [c5Pay] 0 (some []) = none
    ∧ (buildOps cTx [c5Pay] 0 none).isSome = true :=
  ⟨rfl, rfl⟩

/-- Claim C5 witness: the merge equation at a concrete one-operation,
one-result input, and the panic at a concrete short-result input. -/
theorem claim_C5_witness :
    buildOps cTx [c5Pay] 0 (some [⟨1, false⟩]) =
      (buildOps cTx [c5Pay] 0 none).map
        (fun l => List.zipWith AppendResult l
          (List.drop 0 [(⟨1, false⟩ : OperationResult)]))
    ∧ buildOps cTx [c5Pay] 0 (some []) = none :=
  ⟨claim_C5_amended.2.2 cTx [c5Pay] 0 [⟨1, false⟩] (by decide),
   claim_C5_amended.2.1 cTx [c5Pay] [] (by decide)⟩

/-- Claim C6 (code bug): the claim describes the intent, but
`newSetOptions` cannot deliver it. Decoding a set-options operation that
sets only the master weight dereferences the nil `HomeDomain` pointer
(and, were a home domain present, would store through the nil
`Thresholds.Master` pointer of the freshly allocated `&Thresholds{}`) —
a panic, embedded as `none` (conjuncts 1 and 2). Flag bitmasks are never
decoded because the code tests the document's own `op.SetFlags` /
`op.ClearFlags` fields (always nil at that point) instead of the source's
`o.SetFlags` / `o.ClearFlags`: a present bitmask yields an absent flag
set (conjuncts 3 and 4). -/
theorem claim_C6_codebug :
    NewOperation cTx c6Op1 0 = none
    ∧ NewOperation cTx c6Op2 0 = none
    ∧ (NewOperation cTx c6Op3 0).map Operation.setFlags = some none
    ∧ (NewOperation cTx c6Op3 0).map Operation.thresholds = some none :=
  ⟨rfl, rfl, rfl, rfl⟩

/-- Claim C7 (corrected): both offer decoders place the buying asset in
the source-asset slot and the selling asset in the destination-asset
slot, and a zero denominator panics in `big.NewRat` (an error, not a
coerced value). But only create-passive-offer carries the price as the
rational pair as well: `newManageOffer` never assigns `OfferPriceND`, so
a manage-offer document carries the price only as the decimal
approximation (plus the offer id). -/
theorem claim_C7_amended (m : ManageOfferOp) (p : CreatePassiveOfferOp)
    (op : Operation) :
    (m.price.d ≠ 0 → newManageOffer m op = some { op with
        sourceAmount := m.amount
        sourceAsset := some (asset m.buying)
        offerID := m.offerId
        offerPrice := (m.price.n : ℚ) / (m.price.d : ℚ)
        destinationAsset := some (asset m.selling) })
    ∧ (p.price.d ≠ 0 → newCreatePassiveOffer p op = some { op with
        sourceAmount := p.amount
        sourceAsset := some (asset p.buying)
        offerPrice := (p.price.n : ℚ) / (p.price.d : ℚ)
        offerPriceND := ⟨p.price.n, p.price.d⟩
        destinationAsset := some (asset p.selling) })
    ∧ (m.price.d = 0 → newManageOffer m op = none)
    ∧ (p.price.d = 0 → newCreatePassiveOffer p op = none) := by
  refine ⟨?_, ?_, ?_, ?_⟩
  · intro hd; unfold newManageOffer; rw [if_neg hd]
  · intro hd; unfold newCreatePassiveOffer; rw [if_neg hd]
  · intro hd; unfold newManageOffer; rw [if_pos hd]
  · intro hd; unfold newCreatePassiveOffer; rw [if_pos hd]

/-- Claim C7 counterexample: a decoded manage-offer with price 3/2 leaves
the rational-pair field at its zero default — the price is not carried as
the rational pair. -/
theorem claim_C7_counterexample :
    (NewOperation cTx c7Xop 0).map Operation.offerPriceND = some ⟨0, 0⟩
    ∧ c7M.price = ⟨3, 2⟩
    ∧ (Price.mk 0 0) ≠ ⟨3, 2⟩ :=
  ⟨rfl, rfl, by decide⟩

/-- Claim C7 witness: the amended manage-offer equation at a concrete
operation with price 3/2. -/
theorem claim_C7_witness :
    c7M.price.d ≠ 0
    ∧ newManageOffer c7M c7Base = some { c7Base with
        sourceAmount := c7M.amount
        sourceAsset := some (asset c7M.buying)
        offerID := c7M.offerId
        offerPrice := (c7M.price.n : ℚ) / (c7M.price.d : ℚ)
        destinationAsset := some (asset c7M.selling) } :=
  ⟨by decide, (claim_C7_amended c7M c7P c7Base).1 (by decide)⟩

/-- Claim C8 (confirmed): an operation whose kind is outside the known
tag set decodes, without aborting, to exactly the shared envelope
(transaction and ledger linkage, order string, kind tag, source account,
inherited memo and close time), with every kind-specific field left at
its absent/default value. -/
theorem claim_C8_confirmed (t : Transaction) (o : XdrOperation) (n : Nat)
    (s : String) (hb : o.body = .other s) :
    NewOperation t o n = some (baseOperation t o n)
    ∧ (baseOperation t o n).typ = s
    ∧ (baseOperation t o n).txID = t.id
    ∧ (baseOperation t o n).txIndex = t.index
    ∧ (baseOperation t o n).seq = t.seq
    ∧ (baseOperation t o n).order = t.order ++ ":" ++ toString n
    ∧ (baseOperation t o n).closeTime = t.closeTime
    ∧ (baseOperation t o n).txSourceAccountID = t.sourceAccountID
    ∧ (baseOperation t o n).sourceAccountID =
        o.sourceAccount.getD t.sourceAccountID
    ∧ (baseOperation t o n).memo = t.memo
    ∧ (baseOperation t o n).succesful = true
    ∧ (baseOperation t o n).resultCode = 0
    ∧ (baseOperation t o n).sourceAsset = none
    ∧ (baseOperation t o n).destinationAsset = none
    ∧ (baseOperation t o n).path = []
    ∧ (baseOperation t o n).thresholds = none
    ∧ (baseOperation t o n).setFlags = none
    ∧ (baseOperation t o n).clearFlags = none
    ∧ (baseOperation t o n).sourceAmount = 0
    ∧ (baseOperation t o n).destinationAmount = 0
    ∧ (baseOperation t o n).offerID = 0
    ∧ (baseOperation t o n).offerPrice = 0
    ∧ (baseOperation t o n).offerPriceND = ⟨0, 0⟩
    ∧ (baseOperation t o n).trustLimit = 0
    ∧ (baseOperation t o n).authorize = false
    ∧ (baseOperation t o n).bumpTo = 0
    ∧ (baseOperation t o n).destinationAccountID = ""
    ∧ (baseOperation t o n).homeDomain = ""
    ∧ (baseOperation t o n).inflationDest = "" := by
  obtain ⟨sa, body⟩ := o
  simp only at hb
  subst hb
  refine ⟨rfl, ?_⟩
  exact ⟨rfl, rfl, rfl, rfl, rfl, rfl, rfl, rfl, rfl, rfl, rfl, rfl, rfl,
    rfl, rfl, rfl, rfl, rfl, rfl, rfl, rfl, rfl, rfl, rfl, rfl, rfl, rfl,
    rfl⟩

/-- Claim C8 witness: a concrete unknown-kind operation decodes to the
bare envelope document. -/
theorem claim_C8_witness :
    c8Op.body = .other "OperationTypeBumpSequence"
    ∧ NewOperation cTx c8Op 3 = some (baseOperation cTx c8Op 3) :=
  ⟨rfl, (claim_C8_confirmed cTx c8Op 3 "OperationTypeBumpSequence" rfl).1⟩

/-- Claim C9 (confirmed): for every start value, `Execute` with count 0
terminates fatally before any work — no records processed, no documents
built, no `BulkInsert` attempted. -/
theorem claim_C9_confirmed (s rc : Int) (src : List Int) (sink : Bool) :
    ExportExecute ⟨s, 0, rc⟩ src sink = ⟨.fatalEmptyRange, [], 0⟩ := by
  unfold ExportExecute
  simp

/-- Claim C3 (corrected): the bound check keeps a record when
`firstLedger ≤ seq ≤ lastLedger` with `lastLedger = start + count` — a
CLOSED interval `[start, start + count]`, not the claimed half-open
`[start, start + count)`: the sequence `start + count` is processed when
the source yields it. -/
theorem claim_C3_amended (s c rc : Int) (src : List Int) (sink : Bool)
    (seq : Int) (hc : 0 < c) :
    seq ∈ (ExportExecute ⟨s, c, rc⟩ src sink).processed ↔
      seq ∈ src ∧ s ≤ seq ∧ seq ≤ s + c := by
  have hc0 : c ≠ 0 := by omega
  cases sink <;>
    simp [ExportExecute, hc0, List.mem_filter, not_lt, and_assoc]

/-- Claim C3 counterexample: with start 100 and count 50 the record with
sequence 150 = 100 + 50 is processed, although it lies outside the
claimed half-open range [100, 150). -/
theorem claim_C3_counterexample :
    (ExportExecute ⟨100, 50, 25⟩ [150] true).processed = [150]
    ∧ ¬ ((150 : Int) < 100 + 50) :=
  ⟨rfl, by decide⟩

/-- Claim C3 witness: the amended membership characterization at a
concrete boundary input. -/
theorem claim_C3_witness :
    (150 : Int) ∈ (ExportExecute ⟨100, 50, 25⟩ [150] true).processed ↔
      (150 : Int) ∈ ([150] : List Int) ∧ (100 : Int) ≤ 150 ∧
      (150 : Int) ≤ 100 + 50 :=
  claim_C3_amended 100 50 25 [150] true 150 (by decide)

theorem indexRetryGo_fst (rand : Nat → Nat) :
    ∀ (budget retry : Nat), (indexRetryGo rand retry budget).1 = budget + 1 := by
  intro budget
  induction budget with
  | zero => intro retry; rfl
  | succ b ih =>
    intro retry
    have h := ih (retry + 1)
    simp only [indexRetryGo]
    omega

theorem indexRetryGo_len (rand : Nat → Nat) :
    ∀ (budget retry : Nat), (indexRetryGo rand retry budget).2.length = budget := by
  intro budget
  induction budget with
  | zero => intro retry; rfl
  | succ b ih =>
    intro retry
    have h := ih (retry + 1)
    simp only [indexRetryGo, List.length_cons]
    omega

theorem indexRetryGo_delays (rand : Nat → Nat) :
    ∀ (budget retry d : Nat), d ∈ (indexRetryGo rand retry budget).2 →
    5 ≤ d ∧ d ≤ 14 := by
  intro budget
  induction budget with
  | zero =>
    intro retry d hd
    simp [indexRetryGo] at hd
  | succ b ih =>
    intro retry d hd
    simp only [indexRetryGo] at hd
    rcases List.mem_cons.1 hd with he | hm
    · subst he
      have hlt : rand retry % 10 < 10 := Nat.mod_lt _ (by omega)
      omega
    · exact ih (retry + 1) d hm

/-- Claim C4 (corrected): on submission failure `Execute` terminates
fatally after exactly ONE `BulkInsert` call — it never calls the retrying
helper and never sleeps. The helper `ExportCommand.index` (dead code in
the present orchestration), started at attempt counter 0 against an
always-failing sink, would make `retryCount + 2` submissions of the same
buffer — one per counter value 0..retryCount+1, the last one after the
ceiling test — sleeping a jittered delay of `rand.Intn(10) + 5`, i.e.
between 5 and 14 time units, between consecutive submissions. -/
theorem claim_C4_amended (cfg : ExportConfig) (src : List Int) (rc : Nat)
    (rand : Nat → Nat) (hc : cfg.count ≠ 0) :
    ((ExportExecute cfg src false).bulkAttempts = 1
      ∧ (ExportExecute cfg src false).outcome = .fatalBulkFailed)
    ∧ (indexRetryLoop rc rand 0).1 = rc + 2
    ∧ (indexRetryLoop rc rand 0).2.length = rc + 1
    ∧ ∀ d ∈ (indexRetryLoop rc rand 0).2, 5 ≤ d ∧ d ≤ 14 := by
  refine ⟨?_, ?_, ?_, ?_⟩
  · constructor <;> simp [ExportExecute, hc]
  · exact indexRetryGo_fst rand (rc + 1) 0
  · exact indexRetryGo_len rand (rc + 1) 0
  · intro d hd
    exact indexRetryGo_delays rand (rc + 1) 0 d hd

/-- Claim C4 counterexample: with retry ceiling 2 and an always-failing
sink, `Execute` makes 1 submission — not the claimed `retryCeiling + 1 =
3` — and even the unused helper, started at counter 0, would make 4. -/
theorem claim_C4_counterexample :
    (ExportExecute ⟨100, 50, 2⟩ [] false).bulkAttempts = 1
    ∧ (1 : Nat) ≠ 2 + 1
    ∧ (indexRetryLoop 2 (fun _ => 0) 0).1 = 4
    ∧ (4 : Nat) ≠ 2 + 1 := by
  decide

/-- Claim C4 witness: the amended attempt counts at a concrete
configuration. -/
theorem claim_C4_witness :
    (ExportExecute ⟨100, 50, 2⟩ [] false).bulkAttempts = 1
    ∧ (indexRetryLoop 2 (fun _ => 0) 0).1 = 2 + 2 :=
  ⟨(claim_C4_amended ⟨100, 50, 2⟩ [] 2 (fun _ => 0) (by decide)).1.1,
   (claim_C4_amended ⟨100, 50, 2⟩ [] 2 (fun _ => 0) (by decide)).2.1⟩

/-! Helper lemmas about buffer segments and document kinds. -/

theorem get?_append_lt_of_kind (A B : List Doc) (i : Nat) (x : Doc)
    (K : DocKind) (h : (A ++ B).get? i = some x) (hx : x.kind = K)
    (hB : ∀ d ∈ B, d.kind ≠ K) : i < A.length := by
  by_contra hcon
  push_neg at hcon
  rw [List.get?_eq_getElem?, List.getElem?_append_right hcon] at h
  exact hB x (List.getElem?_mem h) hx

theorem get?_append_le_of_kind (A B : List Doc) (j : Nat) (y : Doc)
    (K : DocKind) (h : (A ++ B).get? j = some y) (hy : y.kind = K)
    (hA : ∀ d ∈ A, d.kind ≠ K) : A.length ≤ j := by
  by_contra hcon
  push_neg at hcon
  rw [List.get?_eq_getElem?, List.getElem?_append, if_pos hcon] at h
  exact hA y (List.getElem?_mem h) hy

theorem metaBalanceDocs_kind (seq : Int) (ct : GoTime) (txOrder : Nat) :
    ∀ (metas : List OperationMeta) (j : Nat) (d : Doc),
    d ∈ metaBalanceDocs seq ct txOrder metas j → d.kind = .balance := by
  intro metas
  induction metas with
  | nil => intro j d hd; cases hd
  | cons om rest ih =>
    intro j d hd
    simp only [metaBalanceDocs] at hd
    rcases List.mem_append.1 hd with h1 | h2
    · rcases List.mem_map.1 h1 with ⟨b, _, he⟩
      rw [← he]; rfl
    · exact ih (j + 1) d h2

theorem bmBalancesFromMetas_kind (seq : Int) (ct : GoTime) :
    ∀ (rows : List TxHistoryRow) (i : Nat) (d : Doc),
    d ∈ bmBalancesFromMetas seq ct rows i → d.kind = .balance := by
  intro rows
  induction rows with
  | nil => intro i d hd; cases hd
  | cons row rest ih =>
    intro i d hd
    simp only [bmBalancesFromMetas] at hd
    cases hm : bmMetasOf row.meta with
    | none => rw [hm] at hd; cases hd
    | some metas =>
      rw [hm] at hd
      rcases List.mem_append.1 hd with h1 | h2
      · exact metaBalanceDocs_kind _ _ _ _ _ _ h1
      · exact ih (i + 1) d h2

theorem bmFeeBalances_kind (seq : Int) (ct : GoTime) :
    ∀ (fees : List TxFeeHistoryRow) (i : Nat) (d : Doc),
    d ∈ bmFeeBalances seq ct fees i → d.kind = .balance := by
  intro fees
  induction fees with
  | nil => intro i d hd; cases hd
  | cons fee rest ih =>
    intro i d hd
    simp only [bmFeeBalances] at hd
    rcases List.mem_append.1 hd with h1 | h2
    · rcases List.mem_map.1 h1 with ⟨b, _, he⟩
      rw [← he]; rfl
    · exact ih (i + 1) d h2

theorem mbFeeBalances_kind (seq : Int) (ct : GoTime) :
    ∀ (fees : List TxFeeHistoryRow) (i : Nat) (d : Doc),
    d ∈ mbFeeBalances seq ct fees i → d.kind = .balance := by
  intro fees
  induction fees with
  | nil => intro i d hd; cases hd
  | cons fee rest ih =>
    intro i d hd
    simp only [mbFeeBalances] at hd
    rcases List.mem_append.1 hd with h1 | h2
    · rcases List.mem_map.1 h1 with ⟨b, _, he⟩
      rw [← he]; rfl
    · exact ih (i + 1) d h2

theorem bmOpsLoop_kind (h : LedgerHeader) :
    ∀ (rows : List TxHistoryRow) (l : List Doc), bmOpsLoop h rows = some l →
    ∀ d ∈ l, d.kind = .operation := by
  intro rows
  induction rows with
  | nil =>
    intro l hl d hd
    simp only [bmOpsLoop] at hl
    cases hl; cases hd
  | cons row rest ih =>
    intro l hl d hd
    simp only [bmOpsLoop] at hl
    cases hb : buildOps (NewTransaction row h.closeTime) row.operations 0
        row.results with
    | none => rw [hb] at hl; cases hl
    | some ops =>
      rw [hb] at hl
      cases hrec : bmOpsLoop h rest with
      | none => rw [hrec] at hl; cases hl
      | some more =>
        rw [hrec] at hl
        injection hl with hl
        subst hl
        rcases List.mem_append.1 hd with h1 | h2
        · rcases List.mem_map.1 h1 with ⟨op, _, he⟩
          rw [← he]; rfl
        · exact ih more hrec d h2

theorem buildOps_length (tx : Transaction) :
    ∀ (ops : List XdrOperation) (n : Nat)
    (res : Option (List OperationResult)) (l : List Operation),
    buildOps tx ops n res = some l → l.length = ops.length := by
  intro ops
  induction ops with
  | nil =>
    intro n res l h
    simp only [buildOps] at h
    cases h; rfl
  | cons o rest ih =>
    intro n res l h
    cases res with
    | none =>
      simp only [buildOps] at h
      cases hno : NewOperation tx o (n % 256) with
      | none => rw [hno] at h; cases h
      | some op1 =>
        rw [hno] at h
        cases hrec : buildOps tx rest (n + 1) none with
        | none => rw [hrec] at h; cases h
        | some l' =>
          rw [hrec] at h
          injection h with h
          subst h
          simp [ih (n + 1) none l' hrec]
    | some rs =>
      simp only [buildOps] at h
      cases hno : NewOperation tx o (n % 256) with
      | none => rw [hno] at h; cases h
      | some op1 =>
        rw [hno] at h
        cases hr : rs.get? n with
        | none => rw [hr] at h; cases h
        | some r =>
          rw [hr] at h
          cases hrec : buildOps tx rest (n + 1) (some rs) with
          | none => rw [hrec] at h; cases h
          | some l' =>
            rw [hrec] at h
            injection h with h
            subst h
            simp [ih (n + 1) (some rs) l' hrec]

theorem extractBalance_length (ct : GoTime) (src : BalanceSource)
    (tok : PagingToken) (ch : LedgerEntryChange) :
    (extractBalance ct src tok ch).length = changeBalanceCount ch := by
  cases ch with
  | removed => rfl
  | created e => cases e <;> rfl
  | updated e => cases e <;> rfl

theorem extractBalances_length (ct : GoTime) (src : BalanceSource)
    (tok : PagingToken) :
    ∀ (chs : List LedgerEntryChange),
    (extractBalances chs ct src tok).length = balanceCount chs := by
  intro chs
  induction chs with
  | nil => rfl
  | cons ch rest ih =>
    show (extractBalance ct src tok ch ++ extractBalances rest ct src tok).length
      = balanceCount (ch :: rest)
    rw [List.length_append, extractBalance_length, ih]
    simp [balanceCount]

theorem metaBalanceDocs_map_kind (seq : Int) (ct : GoTime) (txOrder : Nat) :
    ∀ (metas : List OperationMeta) (j : Nat),
    (metaBalanceDocs seq ct txOrder metas j).map Doc.kind =
      List.replicate ((metas.map (fun om => balanceCount om.changes)).sum)
        DocKind.balance := by
  intro metas
  induction metas with
  | nil => intro j; rfl
  | cons om rest ih =>
    intro j
    simp only [metaBalanceDocs, List.map_append, List.map_map]
    rw [ih (j + 1)]
    have hconst :
        (extractBalances om.changes ct .meta
            ⟨seq, txOrder, (j + 1) % 256, 1⟩).map (Doc.kind ∘ Doc.balance) =
          List.replicate (balanceCount om.changes) DocKind.balance := by
      rw [show (Doc.kind ∘ Doc.balance) = (fun _ : Balance => DocKind.balance)
        from rfl]
      rw [List.map_const', extractBalances_length]
    rw [hconst]
    rw [List.map_cons, List.sum_cons, List.replicate_add]

theorem mbTxPart_kinds (h : LedgerHeader) (row : TxHistoryRow)
    (part : List Doc) (hp : mbTxPart h row = some part) :
    part.map Doc.kind = DocKind.transaction ::
      (List.replicate row.operations.length DocKind.operation
        ++ List.replicate (mbMetaBalCount row) DocKind.balance) := by
  unfold mbTxPart at hp
  dsimp only at hp
  cases hb : buildOps (NewTransaction row h.closeTime) row.operations 0
      row.results with
  | none => rw [hb] at hp; exact Option.noConfusion hp
  | some ops =>
    rw [hb] at hp
    injection hp with hp
    subst hp
    simp only [List.map_cons, List.map_append, List.map_map]
    congr 1
    congr 1
    · rw [show (Doc.kind ∘ Doc.operation) = (fun _ : Operation => DocKind.operation)
        from rfl]
      rw [List.map_const', buildOps_length _ _ _ _ _ hb]
    · unfold mbMetaBalancesForRow
      rw [metaBalanceDocs_map_kind]
      rfl

theorem BulkMakerMake_eq (l : LedgerHeaderRow) (t : List TxHistoryRow)
    (f : List TxFeeHistoryRow) (docs : List Doc)
    (h : BulkMakerMake l t f = some docs) :
    ∃ opDocs, bmOpsLoop (NewLedgerHeader l) t = some opDocs ∧
      docs = Doc.ledger (NewLedgerHeader l) ::
        (t.map (fun row => Doc.transaction
            (NewTransaction row (NewLedgerHeader l).closeTime))
          ++ opDocs
          ++ bmBalancesFromMetas (NewLedgerHeader l).seq
              (NewLedgerHeader l).closeTime t 0
          ++ bmFeeBalances (NewLedgerHeader l).seq
              (NewLedgerHeader l).closeTime f 0) := by
  unfold BulkMakerMake at h
  dsimp only at h
  cases hop : bmOpsLoop (NewLedgerHeader l) t with
  | none => rw [hop] at h; exact Option.noConfusion h
  | some opDocs =>
    rw [hop] at h
    injection h with h
    exact ⟨opDocs, rfl, h.symm⟩

theorem MakeBulk_eq (r : LedgerHeaderRow) (txs : List TxHistoryRow)
    (fees : List TxFeeHistoryRow) (docs : List Doc)
    (h : MakeBulk r txs fees = some docs) :
    ∃ txDocs, mbTxLoop (NewLedgerHeader r) txs = some txDocs ∧
      docs = Doc.ledger (NewLedgerHeader r) ::
        (txDocs ++ mbFeeBalances (NewLedgerHeader r).seq
          (NewLedgerHeader r).closeTime fees 0) := by
  unfold MakeBulk at h
  dsimp only at h
  cases hop : mbTxLoop (NewLedgerHeader r) txs with
  | none => rw [hop] at h; exact Option.noConfusion h
  | some txDocs =>
    rw [hop] at h
    injection h with h
    exact ⟨txDocs, rfl, h.symm⟩

theorem optAppend_assoc (a b c : Option (List Doc)) :
    optAppend (optAppend a b) c = optAppend a (optAppend b c) := by
  cases a <;> cases b <;> cases c <;> simp [optAppend]

theorem mbTxLoop_append (h : LedgerHeader) :
    ∀ (xs ys : List TxHistoryRow),
    mbTxLoop h (xs ++ ys) = optAppend (mbTxLoop h xs) (mbTxLoop h ys) := by
  intro xs ys
  induction xs with
  | nil =>
    cases hy : mbTxLoop h ys <;> simp [mbTxLoop, optAppend, hy]
  | cons x xs' ih =>
    show optAppend (mbTxPart h x) (mbTxLoop h (xs' ++ ys)) = _
    rw [ih]
    rw [← optAppend_assoc]
    rfl

/-- Claim C2 (corrected): neither builder emits the claimed order.
`BulkMaker.Make` emits the ledger header, then ALL Transaction documents,
then ALL Operation documents, then all meta-derived balances, then all
fee-derived balances — so every Operation does precede every Balance
(conjunct 1), but every Transaction also precedes every Operation
(conjunct 2), refuting "the Transaction document followed by its
Operation documents". `MakeBulk` instead interleaves per transaction: one
transaction's slice is its Transaction document, its Operation documents,
then its meta-derived Balance documents (conjunct 3), with the header
first and the fee balances as the final segment (conjunct 4) — so an
earlier transaction's Balance documents precede a later transaction's
Operation documents. -/
theorem claim_C2_amended (l : LedgerHeaderRow) (t : List TxHistoryRow)
    (f : List TxFeeHistoryRow) (docs : List Doc) :
    (BulkMakerMake l t f = some docs →
      (∀ i j op b, docs.get? i = some (.operation op) →
        docs.get? j = some (.balance b) → i < j)
      ∧ (∀ i j tx op, docs.get? i = some (.transaction tx) →
        docs.get? j = some (.operation op) → i < j))
    ∧ (∀ (h : LedgerHeader) (row : TxHistoryRow) (part : List Doc),
      mbTxPart h row = some part →
      part.map Doc.kind = DocKind.transaction ::
        (List.replicate row.operations.length DocKind.operation
          ++ List.replicate (mbMetaBalCount row) DocKind.balance))
    ∧ (MakeBulk l t f = some docs →
      docs.head? = some (.ledger (NewLedgerHeader l))
      ∧ List.IsSuffix
          (mbFeeBalances (NewLedgerHeader l).seq
            (NewLedgerHeader l).closeTime f 0) docs) := by
  refine ⟨?_, ?_, ?_⟩
  · intro hsome
    obtain ⟨opDocs, hop, hdocs⟩ := BulkMakerMake_eq l t f docs hsome
    constructor
    · intro i j op b hi hj
      have hsplit : docs =
          (Doc.ledger (NewLedgerHeader l) ::
            (t.map (fun row => Doc.transaction
                (NewTransaction row (NewLedgerHeader l).closeTime))
              ++ opDocs))
          ++ (bmBalancesFromMetas (NewLedgerHeader l).seq
                (NewLedgerHeader l).closeTime t 0
              ++ bmFeeBalances (NewLedgerHeader l).seq
                (NewLedgerHeader l).closeTime f 0) := by
        rw [hdocs]; simp [List.append_assoc]
      rw [hsplit] at hi hj
      have hiA := get?_append_lt_of_kind _ _ i _ DocKind.operation hi rfl
        (by
          intro d hd
          rcases List.mem_append.1 hd with h1 | h2
          · rw [bmBalancesFromMetas_kind _ _ _ _ _ h1]; decide
          · rw [bmFeeBalances_kind _ _ _ _ _ h2]; decide)
      have hjA := get?_append_le_of_kind _ _ j _ DocKind.balance hj rfl
        (by
          intro d hd
          rcases List.mem_cons.1 hd with he | hd'
          · subst he; simp [Doc.kind]
          · rcases List.mem_append.1 hd' with h1 | h2
            · rcases List.mem_map.1 h1 with ⟨row, _, he⟩
              rw [← he]; simp [Doc.kind]
            · rw [bmOpsLoop_kind _ _ _ hop d h2]; decide)
      omega
    · intro i j tx op hi hj
      have hsplit : docs =
          (Doc.ledger (NewLedgerHeader l) ::
            t.map (fun row => Doc.transaction
              (NewTransaction row (NewLedgerHeader l).closeTime)))
          ++ (opDocs
              ++ bmBalancesFromMetas (NewLedgerHeader l).seq
                (NewLedgerHeader l).closeTime t 0
              ++ bmFeeBalances (NewLedgerHeader l).seq
                (NewLedgerHeader l).closeTime f 0) := by
        rw [hdocs]; simp [List.append_assoc]
      rw [hsplit] at hi hj
      have hiA := get?_append_lt_of_kind _ _ i _ DocKind.transaction hi rfl
        (by
          intro d hd
          rcases List.mem_append.1 hd with h1 | h2
          · rcases List.mem_append.1 h1 with h1a | h1b
            · rw [bmOpsLoop_kind _ _ _ hop d h1a]; decide
            · rw [bmBalancesFromMetas_kind _ _ _ _ _ h1b]; decide
          · rw [bmFeeBalances_kind _ _ _ _ _ h2]; decide)
      have hjA := get?_append_le_of_kind _ _ j _ DocKind.operation hj rfl
        (by
          intro d hd
          rcases List.mem_cons.1 hd with he | hd'
          · subst he; simp [Doc.kind]
          · rcases List.mem_map.1 hd' with ⟨row, _, he⟩
            rw [← he]; simp [Doc.kind])
      omega
  · intro h row part hp
    exact mbTxPart_kinds h row part hp
  · intro hsome
    obtain ⟨txDocs, hop, hdocs⟩ := MakeBulk_eq l t f docs hsome
    constructor
    · rw [hdocs]; rfl
    · rw [hdocs]
      exact List.suffix_append
        (Doc.ledger (NewLedgerHeader l) :: txDocs) _

/-- Claim C2 counterexample: over a two-transaction ledger (the first
transaction has one operation and one meta-derived balance, the second
has one operation), `MakeBulk` emits kinds
[ledger, transaction, operation, balance, transaction, operation] — a
Balance (position 3) precedes an Operation (position 5) — and
`BulkMaker` emits
[ledger, transaction, transaction, operation, operation, balance] — the
second Transaction precedes the first transaction's Operation. The claim
requires [ledger, transaction, operation, transaction, operation,
balance] with every Operation before every Balance; both buffers differ
from it. -/
theorem claim_C2_counterexample :
    (MakeBulk c2L [c2Row1, c2Row2] []).map (List.map Doc.kind) =
      some [DocKind.ledger, DocKind.transaction, DocKind.operation,
        DocKind.balance, DocKind.transaction, DocKind.operation]
    ∧ (BulkMakerMake c2L [c2Row1, c2Row2] []).map (List.map Doc.kind) =
      some [DocKind.ledger, DocKind.transaction, DocKind.transaction,
        DocKind.operation, DocKind.operation, DocKind.balance] :=
  ⟨rfl, rfl⟩

/-- Claim C2 witness: in the concrete `BulkMaker` buffer the Operation at
position 3 precedes the Balance at position 5, by the amended ordering
theorem. -/
theorem claim_C2_witness :
    BulkMakerMake c2L [c2Row1, c2Row2] [] = some c2BMdocs
    ∧ (3 : Nat) < 5 := by
  have h1 : BulkMakerMake c2L [c2Row1, c2Row2] [] = some c2BMdocs := rfl
  exact ⟨h1, ((claim_C2_amended c2L [c2Row1, c2Row2] [] c2BMdocs).1 h1).1
    3 5 c2AnOp c2ABal rfl rfl⟩

/-! Helper lemmas for claim C10. -/

theorem bmBalancesFromMetas_stop (seq : Int) (ct : GoTime)
    (row : TxHistoryRow) (hbad : bmMetasOf row.meta = none) :
    ∀ (pre : List TxHistoryRow) (i : Nat) (rest : List TxHistoryRow),
    bmBalancesFromMetas seq ct (pre ++ row :: rest) i =
      bmBalancesFromMetas seq ct pre i := by
  intro pre
  induction pre with
  | nil =>
    intro i rest
    show bmBalancesFromMetas seq ct (row :: rest) i = _
    simp [bmBalancesFromMetas, hbad]
  | cons p pre' ih =>
    intro i rest
    show bmBalancesFromMetas seq ct (p :: (pre' ++ row :: rest)) i = _
    simp only [bmBalancesFromMetas]
    cases hm : bmMetasOf p.meta with
    | none => rfl
    | some metas => rw [ih (i + 1) rest]

theorem bmMetasOf_none_mb (m : TransactionMeta) (h : bmMetasOf m = none) :
    mbMetasOf m = [] := by
  cases m <;> simp_all [bmMetasOf, mbMetasOf, TransactionMeta.getV1,
    TransactionMeta.getOperations]

/-- Claim C10 (confirmed): when a transaction's meta carries neither a v1
nor a legacy operations list, `BulkMaker.makeBalancesFromMetas` aborts
for the whole ledger — the buffer gets exactly the meta balances of the
transactions BEFORE the bad row, none for it or any later row (conjunct
1) — while the fee balances are still emitted as the buffer's final
segment (conjunct 2). `MakeBulk` instead gives that transaction zero
meta-derived balances (its slice has no balance documents, conjunct 3)
and continues with the remaining transactions — its transaction loop
distributes over the list split, with no early abort (conjunct 4). -/
theorem claim_C10_confirmed (seq : Int) (ct : GoTime) (i : Nat)
    (pre rest : List TxHistoryRow) (row : TxHistoryRow)
    (l : LedgerHeaderRow) (f : List TxFeeHistoryRow)
    (docs part : List Doc) (hh : LedgerHeader)
    (hbad : bmMetasOf row.meta = none) :
    bmBalancesFromMetas seq ct (pre ++ row :: rest) i =
      bmBalancesFromMetas seq ct pre i
    ∧ (BulkMakerMake l (pre ++ row :: rest) f = some docs →
      List.IsSuffix (bmFeeBalances (NewLedgerHeader l).seq
        (NewLedgerHeader l).closeTime f 0) docs)
    ∧ (mbTxPart hh row = some part → ∀ d ∈ part, d.kind ≠ DocKind.balance)
    ∧ mbTxLoop hh (pre ++ row :: rest) =
      optAppend (mbTxLoop hh pre) (mbTxLoop hh (row :: rest)) := by
  refine ⟨bmBalancesFromMetas_stop seq ct row hbad pre i rest, ?_, ?_, ?_⟩
  · intro hsome
    obtain ⟨opDocs, hop, hdocs⟩ := BulkMakerMake_eq l _ f docs hsome
    rw [hdocs]
    exact List.suffix_append
      (Doc.ledger (NewLedgerHeader l) ::
        ((pre ++ row :: rest).map (fun r => Doc.transaction
            (NewTransaction r (NewLedgerHeader l).closeTime))
          ++ opDocs
          ++ bmBalancesFromMetas (NewLedgerHeader l).seq
            (NewLedgerHeader l).closeTime (pre ++ row :: rest) 0)) _
  · intro hp d hd
    have hcount : mbMetaBalCount row = 0 := by
      unfold mbMetaBalCount
      rw [bmMetasOf_none_mb row.meta hbad]
      rfl
    have hkinds := mbTxPart_kinds hh row part hp
    rw [hcount] at hkinds
    have hmem : d.kind ∈ part.map Doc.kind := List.mem_map_of_mem Doc.kind hd
    rw [hkinds] at hmem
    rcases List.mem_cons.1 hmem with he | hmem'
    · rw [he]; decide
    · simp only [List.replicate_zero, List.append_nil] at hmem'
      rw [List.eq_of_mem_replicate hmem']
      decide
  · exact mbTxLoop_append hh pre (row :: rest)

/-- Claim C10 witness: with a good row followed by a meta-less row,
`BulkMaker`'s meta pass emits exactly the good row's balances and stops. -/
theorem claim_C10_witness :
    bmMetasOf c10Bad.meta = none
    ∧ bmBalancesFromMetas 1000 7 ([c10Good] ++ [c10Bad]) 0 =
        bmBalancesFromMetas 1000 7 [c10Good] 0 :=
  ⟨rfl, (claim_C10_confirmed 1000 7 0 [c10Good] [] c10Bad ⟨1000, 7⟩ [] [] []
    ⟨1000, 7⟩ rfl).1⟩

end StellarCoreExport
